import Mathlib

/-!
A shallow embedding of `src/go_board.py` (Go board SVG generator):
board geometry (`make_go_board_spec`), the minimal SGF scanner
(`parse_sgf_minimal`), the coordinate mapper (`sgf_to_rc`), the overlay
builder (`build_stones_and_numbers`), background resolution
(`choose_background`) and the SVG renderer (`render_svg`).

Python `float` style parameters are modelled as `ℚ` (every arithmetic
operation used by the program — `+`, `*`, `/ 2`, scaling — is exact on the
values involved); the textual formatting of numbers inside the SVG markup is
abstracted by `fmtQ`.  Python `str.isalpha` / `.upper()` / `.lower()` /
`.strip()` are modelled on ASCII (the inputs the program consumes are ASCII).
Python `dict` (insertion ordered, update-in-place, delete) is modelled as an
association list with `dinsert` / `derase`.
-/

/-- Board spec mirroring the Python dataclass `GoBoardSpec`
(`size`, `intersections`, `mid`, `hoshi`; rows and columns 1-based). -/
structure GoBoardSpec where
  size : Nat
  intersections : Nat
  mid : Int
  hoshi : List (Int × Int)
deriving DecidableEq, Repr

/-- Ascending lexicographic comparison on `(row, col)` pairs, the order
Python's `sorted` uses on 2-tuples. -/
def pairLeB (a b : Int × Int) : Bool :=
  decide (a.1 < b.1 ∨ (a.1 = b.1 ∧ a.2 ≤ b.2))

/-- Insert into an already sorted list, keeping existing elements first on
ties. -/
def insertSorted (x : Int × Int) : List (Int × Int) → List (Int × Int)
  | [] => [x]
  | y :: rest => if pairLeB y x then y :: insertSorted x rest else x :: y :: rest

/-- Python's `sorted` on `(row, col)` tuples (ascending lexicographic);
modelled as insertion sort, which agrees with any sort on the total order
`pairLeB`. -/
def pySorted (l : List (Int × Int)) : List (Int × Int) :=
  l.foldr insertSorted []

/-- `make_go_board_spec` from the source: hoshi point lists for 9/13/19,
passed through `sorted`; any other size is the fatal error branch (`none`). -/
def make_go_board_spec (size : Nat) : Option GoBoardSpec :=
  if size = 19 then
    let k : Int := 4
    let mid : Int := 10
    let pts : List (Int × Int) := [
      (k, k), (k, mid), (k, 19 - k + 1),
      (mid, k), (mid, mid), (mid, 19 - k + 1),
      (19 - k + 1, k), (19 - k + 1, mid), (19 - k + 1, 19 - k + 1)]
    some ⟨size, size * size, (size + 1) / 2, pySorted pts⟩
  else if size = 13 then
    let k : Int := 4
    let mid : Int := 7
    let pts : List (Int × Int) := [(k, k), (k, 13 - k + 1), (13 - k + 1, k),
      (13 - k + 1, 13 - k + 1), (mid, mid)]
    some ⟨size, size * size, (size + 1) / 2, pySorted pts⟩
  else if size = 9 then
    let k : Int := 3
    let mid : Int := 5
    let pts : List (Int × Int) := [(k, k), (k, 9 - k + 1), (9 - k + 1, k),
      (9 - k + 1, 9 - k + 1), (mid, mid)]
    some ⟨size, size * size, (size + 1) / 2, pySorted pts⟩
  else none

/-- `sgf_to_rc` from the source: `'aa' -> (1,1)`; empty or non-2-character
tokens and results with a row or column below 1 give `none` (a pass). -/
def sgf_to_rc (coord : String) : Option (Int × Int) :=
  if coord = "" then none
  else if coord.length ≠ 2 then none
  else
    match coord.data with
    | c0 :: c1 :: _ =>
      let r : Int := (c1.toNat : Int) - ('a'.toNat : Int) + 1
      let c : Int := (c0.toNat : Int) - ('a'.toNat : Int) + 1
      if r < 1 ∨ c < 1 then none else some (r, c)
    | _ => none

example : sgf_to_rc "aa" = some (1, 1) := by decide
example : sgf_to_rc "zz" = some (26, 26) := by decide
example : sgf_to_rc "" = none := by decide
example : sgf_to_rc "a" = none := by decide
example : sgf_to_rc (String.mk [Char.ofNat 123, Char.ofNat 123]) = some (27, 27) := by decide

/-- Result of `parse_sgf_minimal` (the dataclass `SGFParsed`). -/
structure SGFParsed where
  size : Option Int
  ab : List String
  aw : List String
  ae : List String
  moves : List (String × String)
deriving DecidableEq, Repr

/-- ASCII whitespace, for Python's `int(...)` / `str.strip()` tolerance. -/
def isPyWs (c : Char) : Bool :=
  c = ' ' || c = '\t' || c = '\n' || c = '\r' || c = Char.ofNat 11 || c = Char.ofNat 12

/-- Digit-and-underscore tail of a Python integer literal: after a first
digit, digits accumulate and a single `_` may separate two digits. -/
def pyDigitsAux : Nat → List Char → Option Nat
  | acc, [] => some acc
  | acc, c :: rest =>
    if c.isDigit then pyDigitsAux (acc * 10 + (c.toNat - 48)) rest
    else if c = '_' then
      match rest with
      | [] => none
      | c2 :: _ => if c2.isDigit then pyDigitsAux acc rest else none
    else none

/-- A nonempty digit group (must start with a digit). -/
def pyDigits : List Char → Option Nat
  | [] => none
  | c :: rest => if c.isDigit then pyDigitsAux 0 (c :: rest) else none

/-- Python `int(v)` on a string: surrounding whitespace stripped, optional
sign, base-10 ASCII digits (underscore separators allowed); `none` when
`int` would raise `ValueError`. -/
def pyInt? (v : String) : Option Int :=
  let l := (((v.data.dropWhile isPyWs).reverse.dropWhile isPyWs).reverse)
  match l with
  | [] => none
  | c :: rest =>
    if c = '+' then (pyDigits rest).map (fun n => (n : Int))
    else if c = '-' then (pyDigits rest).map (fun n => -(n : Int))
    else (pyDigits (c :: rest)).map (fun n => (n : Int))

example : pyInt? "13" = some 13 := by decide
example : pyInt? " -9 " = some (-9) := by decide
example : pyInt? "1_2" = some 12 := by decide
example : pyInt? "1__2" = none := by decide
example : pyInt? "" = none := by decide
example : pyInt? "abc" = none := by decide

/-- `read_ident` from the source: the maximal alphabetic run at the cursor,
and the rest of the text. -/
def read_ident : List Char → List Char × List Char
  | [] => ([], [])
  | c :: rest =>
    if c.isAlpha then
      let p := read_ident rest
      (c :: p.1, p.2)
    else ([], c :: rest)

/-- Body of a bracket value (the cursor already past `[`): a backslash
escapes the following character (when one follows), `]` closes; an
unterminated value runs to the end of the text. -/
def read_bracket_body : List Char → List Char × List Char
  | [] => ([], [])
  | '\\' :: c2 :: rest2 =>
    let p := read_bracket_body rest2
    (c2 :: p.1, p.2)
  | '\\' :: [] => (['\\'], [])
  | ']' :: rest => ([], rest)
  | c :: rest =>
    let p := read_bracket_body rest
    (c :: p.1, p.2)

/-- `read_bracket_val` from the source: the fatal "expected `[`" branch
unless the cursor sits on `[`; otherwise reads one bracket value. -/
def read_bracket_val (l : List Char) : Except String (List Char × List Char) :=
  if l.head? = some '[' then .ok (read_bracket_body l.tail)
  else .error "SGF parse error: expected opening bracket"

theorem read_bracket_body_length_le (l : List Char) :
    (read_bracket_body l).2.length ≤ l.length := by
  induction l using read_bracket_body.induct <;>
    simp_all [read_bracket_body] <;> omega

theorem read_bracket_val_ok_length {l : List Char} {v r} (h : read_bracket_val l = .ok (v, r)) :
    r.length < l.length := by
  match l with
  | [] => simp [read_bracket_val] at h
  | c :: rest =>
    rw [read_bracket_val] at h
    by_cases hc : c = '['
    · subst hc
      rw [if_pos (by simp)] at h
      injection h with h1
      have hle := read_bracket_body_length_le rest
      have h2 : (read_bracket_body rest).2 = r := by
        rw [show read_bracket_body rest = (v, r) from h1]
      rw [← h2]
      simp only [List.length_cons]
      omega
    · rw [if_neg (by simp [hc])] at h
      cases h

theorem read_ident_length_le (l : List Char) :
    (read_ident l).2.length ≤ l.length := by
  induction l with
  | nil => simp [read_ident]
  | cons c rest ih =>
    simp only [read_ident]
    split
    · simpa using Nat.le_succ_of_le ih
    · simp

/-- `props.setdefault(up, []).extend(vals)`: append the values to the
property's list, creating the entry (even an empty one) if absent. -/
def extendProp : List (String × List String) → String → List String →
    List (String × List String)
  | [], k, vs => [(k, vs)]
  | (k2, vs2) :: rest, k, vs =>
    if k2 = k then (k2, vs2 ++ vs) :: rest
    else (k2, vs2) :: extendProp rest k vs

/-- `props.get(k, [])`. -/
def getProp (props : List (String × List String)) (k : String) : List String :=
  match props.find? (fun p => p.1 == k) with
  | some p => p.2
  | none => []

/-- The `SZ` extraction loop of the source: walk the collected `SZ` values
last-to-first and keep the first that `int(...)` accepts. -/
def szFromVals (vals : List String) : Option Int :=
  vals.reverse.findSome? pyInt?

/-- `ident.upper()` (ASCII). -/
def pyUpper (s : String) : String :=
  String.mk (s.data.map Char.toUpper)

/-- The `while j < len(s) and s[j] == '['` loop of the scanner: collect
consecutive bracket values.  `fuel` is a proof artifact bounding the number
of iterations; every call supplies at least the text's length, which
suffices because each iteration consumes the opening bracket. -/
def read_valsF : Nat → List Char → Except String (List (List Char) × List Char)
  | fuel, l =>
    if l.head? = some '[' then
      match fuel with
      | 0 => .error "out of fuel"
      | fuel + 1 =>
        match read_bracket_val l with
        | .error e => .error e
        | .ok (v, r) =>
          match read_valsF fuel r with
          | .error e => .error e
          | .ok (vs, r2) => .ok (v :: vs, r2)
    else .ok ([], l)

/-- The character-cursor loop of `parse_sgf_minimal`: skip `;()`, read an
identifier plus its bracket values when on a letter, skip anything else.
`B`/`W` append `(ident.upper(), first value or "")` to the move order; any
other identifier extends `props`.  `fuel` is a proof artifact as in
`read_valsF`: each iteration consumes at least one character. -/
def parseLoopF : Nat → List Char → List (String × List String) →
    List (String × String) →
    Except String (List (String × List String) × List (String × String))
  | _, [], props, order => .ok (props, order)
  | 0, _ :: _, _, _ => .error "out of fuel"
  | fuel + 1, c :: rest, props, order =>
    if c = ';' ∨ c = '(' ∨ c = ')' then parseLoopF fuel rest props order
    else if c.isAlpha then
      let p := read_ident (c :: rest)
      match read_valsF p.2.length p.2 with
      | .error e => .error e
      | .ok (vals, rest3) =>
        let up := pyUpper (String.mk p.1)
        if up = "B" ∨ up = "W" then
          parseLoopF fuel rest3 props (order ++ [(up, String.mk (vals.headD []))])
        else
          parseLoopF fuel rest3 (extendProp props up (vals.map String.mk)) order
    else parseLoopF fuel rest props order

/-- `parse_sgf_minimal` from the source: strip `\r`, run the scanner, then
extract `SZ` (last value accepted by `int`), the `AB`/`AW`/`AE` lists and
the move order. -/
def parse_sgf_minimal (s : String) : Except String SGFParsed :=
  let l := s.data.filter (fun c => c != '\r')
  match parseLoopF l.length l [] [] with
  | .error e => .error e
  | .ok (props, order) =>
    .ok ⟨szFromVals (getProp props "SZ"), getProp props "AB", getProp props "AW",
         getProp props "AE", order⟩

instance {ε α : Type} [DecidableEq ε] [DecidableEq α] : DecidableEq (Except ε α) :=
  fun x y =>
    match x, y with
    | .ok a, .ok b =>
      if h : a = b then .isTrue (by rw [h])
      else .isFalse (fun hc => by injection hc; contradiction)
    | .error a, .error b =>
      if h : a = b then .isTrue (by rw [h])
      else .isFalse (fun hc => by injection hc; contradiction)
    | .ok _, .error _ => .isFalse (fun hc => by cases hc)
    | .error _, .ok _ => .isFalse (fun hc => by cases hc)

example : parse_sgf_minimal "(;SZ[19]AB[dd]AW[pp];B[cc];W[])" =
    .ok ⟨some 19, ["dd"], ["pp"], [], [("B", "cc"), ("W", "")]⟩ := by decide
example : parse_sgf_minimal "B!" = .ok ⟨none, [], [], [], [("B", "")]⟩ := by decide
example : parse_sgf_minimal "XY[foo]AB[dd]" = .ok ⟨none, ["dd"], [], [], []⟩ := by decide

/-- With enough fuel (the text's length always is), the bracket-value loop
always succeeds and leaves a suffix of the text: the expected-bracket error
branch of `read_bracket_val` is guarded by the loop condition. -/
theorem read_valsF_ok :
    ∀ (fuel : Nat) (l : List Char), l.length ≤ fuel →
      ∃ vs r, read_valsF fuel l = .ok (vs, r) ∧ r.length ≤ l.length := by
  intro fuel
  induction fuel with
  | zero =>
    intro l hl
    have : l = [] := List.length_eq_zero.mp (Nat.le_zero.mp hl)
    subst this
    exact ⟨[], [], by rw [read_valsF]; simp, le_refl _⟩
  | succ fuel ih =>
    intro l hl
    by_cases hh : l.head? = some '['
    · have hval : read_bracket_val l = .ok (read_bracket_body l.tail) := by
        rw [read_bracket_val, if_pos hh]
      obtain ⟨v0, r0, hvr⟩ : ∃ v0 r0, read_bracket_val l = .ok (v0, r0) :=
        ⟨(read_bracket_body l.tail).1, (read_bracket_body l.tail).2, hval⟩
      have hr0 : r0.length < l.length := read_bracket_val_ok_length hvr
      obtain ⟨vs, r, hok, hr⟩ := ih r0 (by omega)
      refine ⟨v0 :: vs, r, ?_, by omega⟩
      rw [read_valsF, if_pos hh, hvr]
      simp only [hok]
    · exact ⟨[], l, by rw [read_valsF, if_neg hh], le_refl _⟩

/-- The tail left by the bracket-value loop is no longer than its input. -/
theorem read_valsF_length_le {fuel : Nat} {l : List Char} {vs r}
    (h : read_valsF fuel l = .ok (vs, r)) : r.length ≤ l.length := by
  induction fuel generalizing l vs r with
  | zero =>
    rw [read_valsF] at h
    split at h
    · cases h
    · cases h
      exact le_refl _
  | succ fuel ih =>
    rw [read_valsF] at h
    split at h
    · match hvr : read_bracket_val l with
      | .error e => rw [hvr] at h; cases h
      | .ok (v0, r0) =>
        rw [hvr] at h
        dsimp only at h
        have hr0 : r0.length < l.length := read_bracket_val_ok_length hvr
        match hrec : read_valsF fuel r0 with
        | .error e => rw [hrec] at h; cases h
        | .ok (vs2, r2) =>
          rw [hrec] at h
          dsimp only at h
          cases h
          have := ih hrec
          omega
    · cases h
      exact le_refl _

/-- With enough fuel (the text's length always is), the scanner loop never
fails: every branch either consumes the character or reads bracket values
only behind the `s[j] == '['` guard. -/
theorem parseLoopF_ok :
    ∀ (fuel : Nat) (l : List Char) props order, l.length ≤ fuel →
      ∃ res, parseLoopF fuel l props order = .ok res := by
  intro fuel
  induction fuel with
  | zero =>
    intro l props order hl
    have : l = [] := List.length_eq_zero.mp (Nat.le_zero.mp hl)
    subst this
    exact ⟨(props, order), rfl⟩
  | succ fuel ih =>
    intro l props order hl
    match l with
    | [] => exact ⟨(props, order), rfl⟩
    | c :: rest =>
      simp only [parseLoopF]
      simp only [List.length_cons] at hl
      by_cases hstruct : c = ';' ∨ c = '(' ∨ c = ')'
      · rw [if_pos hstruct]
        exact ih rest props order (by omega)
      · rw [if_neg hstruct]
        by_cases halpha : c.isAlpha
        · rw [if_pos halpha]
          obtain ⟨vs, r3, hok, hr3⟩ :=
            read_valsF_ok (read_ident (c :: rest)).2.length (read_ident (c :: rest)).2
              (le_refl _)
          rw [hok]
          dsimp only
          have hident : (read_ident (c :: rest)).2.length ≤ rest.length := by
            simpa [read_ident, halpha] using read_ident_length_le rest
          have hr3fuel : r3.length ≤ fuel := by omega
          by_cases hbw : pyUpper (String.mk (read_ident (c :: rest)).1) = "B" ∨
              pyUpper (String.mk (read_ident (c :: rest)).1) = "W"
          · rw [if_pos hbw]
            exact ih r3 _ _ hr3fuel
          · rw [if_neg hbw]
            exact ih r3 _ _ hr3fuel
        · rw [if_neg halpha]
          exact ih rest props order (by omega)

/-- `parse_sgf_minimal` never reaches the `MalformedRecordError` branch. -/
theorem parse_sgf_minimal_ok (s : String) :
    ∃ r, parse_sgf_minimal s = .ok r := by
  rw [parse_sgf_minimal]
  obtain ⟨⟨props, order⟩, hok⟩ :=
    parseLoopF_ok (s.data.filter (fun c => c != '\r')).length
      (s.data.filter (fun c => c != '\r')) [] [] (le_refl _)
  rw [hok]
  exact ⟨_, rfl⟩

/-- The render options `build_stones_and_numbers` consumes (the dataclass
`SGFRenderOptions`; the color and scale fields ride along unused here). -/
structure SGFRenderOptions where
  mode : String := "position"
  moves_limit : Int := 0
  numbering : String := "none"
  number_color : String := "#ffffff"
  outline_color : String := "#000000"
  stone_radius_scale : ℚ := 42 / 100
  move_number_font_scale : ℚ := 44 / 100
deriving DecidableEq, Repr

/-- Python-dict assignment `d[k] = v` on an insertion-ordered association
list: update in place when the key exists, else append at the end. -/
def dinsert (k : Int × Int) (v : String) :
    List ((Int × Int) × String) → List ((Int × Int) × String)
  | [] => [(k, v)]
  | (k2, v2) :: rest =>
    if k2 = k then (k2, v) :: rest else (k2, v2) :: dinsert k v rest

/-- Python-dict `del d[k]`. -/
def derase (k : Int × Int) :
    List ((Int × Int) × String) → List ((Int × Int) × String)
  | [] => []
  | (k2, v2) :: rest =>
    if k2 = k then rest else (k2, v2) :: derase k rest

/-- Python-dict `k in d`. -/
def containsKey (k : Int × Int) (d : List ((Int × Int) × String)) : Bool :=
  d.any (fun e => e.1 == k)

/-- One move-log entry: `(r, c, color, origin)` with origin
`"setup"` or `"move"`. -/
abbrev SeqEntry := Int × Int × String × String

/-- The two setup loops of `build_stones_and_numbers` (`AB` with color `"B"`,
`AW` with `"W"`): place each mappable token and log it as a setup entry. -/
def setupFold (color : String) : List String → List ((Int × Int) × String) →
    List SeqEntry → List ((Int × Int) × String) × List SeqEntry
  | [], st, sq => (st, sq)
  | code :: rest, st, sq =>
    match sgf_to_rc code with
    | some rc => setupFold color rest (dinsert rc color st) (sq ++ [(rc.1, rc.2, color, "setup")])
    | none => setupFold color rest st sq

/-- The `AE` loop: clear each mappable token's point when occupied; the log
is untouched. -/
def aeFold : List String → List ((Int × Int) × String) →
    List ((Int × Int) × String)
  | [], st => st
  | code :: rest, st =>
    match sgf_to_rc code with
    | some rc => aeFold rest (if containsKey rc st then derase rc st else st)
    | none => aeFold rest st

/-- The `mode == "moves"` loop: `break` once `remaining <= 0`, skip passes
without consuming the budget, place and log each remaining move. -/
def movesLoopLimited (remaining : Int) :
    List (String × String) → List ((Int × Int) × String) →
    List (Int × Int × String) → List SeqEntry →
    List ((Int × Int) × String) × List (Int × Int × String) × List SeqEntry
  | [], st, ap, sq => (st, ap, sq)
  | (color, code) :: rest, st, ap, sq =>
    if remaining ≤ 0 then (st, ap, sq)
    else
      match sgf_to_rc code with
      | none => movesLoopLimited remaining rest st ap sq
      | some rc =>
        movesLoopLimited (remaining - 1) rest (dinsert rc color st)
          (ap ++ [(rc.1, rc.2, color)]) (sq ++ [(rc.1, rc.2, color, "move")])

/-- The unlimited move loop (any mode other than `"moves"`). -/
def movesLoopAll :
    List (String × String) → List ((Int × Int) × String) →
    List (Int × Int × String) → List SeqEntry →
    List ((Int × Int) × String) × List (Int × Int × String) × List SeqEntry
  | [], st, ap, sq => (st, ap, sq)
  | (color, code) :: rest, st, ap, sq =>
    match sgf_to_rc code with
    | none => movesLoopAll rest st ap sq
    | some rc =>
      movesLoopAll rest (dinsert rc color st)
        (ap ++ [(rc.1, rc.2, color)]) (sq ++ [(rc.1, rc.2, color, "move")])

/-- The numbering loops: consecutive numbers starting at `n` over positions
in order. -/
def numberLoop : Int → List (Int × Int) → List (Int × Int × Int)
  | _, [] => []
  | n, (r, c) :: rest => (r, c, n) :: numberLoop (n + 1) rest

/-- `build_stones_and_numbers` from the source: apply `AB`, `AW`, `AE`,
then the moves (limited when `mode == "moves"`, with `10**12` standing for
an unlimited budget when `moves_limit <= 0`), read the final stone layout
off the dict in insertion order, and number according to `numbering`. -/
def build_stones_and_numbers (parsed : SGFParsed) (render : SGFRenderOptions) :
    List (Int × Int × String) × Option (List (Int × Int × Int)) :=
  let p1 := setupFold "B" parsed.ab [] []
  let p2 := setupFold "W" parsed.aw p1.1 p1.2
  let st3 := aeFold parsed.ae p2.1
  let p4 :=
    if render.mode = "moves" then
      movesLoopLimited (if render.moves_limit > 0 then render.moves_limit else 10 ^ 12)
        parsed.moves st3 [] p2.2
    else
      movesLoopAll parsed.moves st3 [] p2.2
  let stones_list := p4.1.map (fun e => (e.1.1, e.1.2, e.2))
  if render.numbering = "none" then (stones_list, none)
  else if render.numbering = "moves" then
    (stones_list, some (numberLoop 1 (p4.2.1.map (fun t => (t.1, t.2.1)))))
  else if render.numbering = "all" then
    (stones_list, some (numberLoop 1 (p4.2.2.map (fun q => (q.1, q.2.1)))))
  else (stones_list, some [])

example :
    build_stones_and_numbers ⟨none, ["dd"], [], [], []⟩ ⟨"position", 0, "none", "#ffffff", "#000000", 42/100, 44/100⟩ =
      ([(4, 4, "B")], none) := by decide
example :
    build_stones_and_numbers ⟨none, ["dd"], ["pp"], [], [("B", "cc")]⟩
        ⟨"position", 0, "all", "#ffffff", "#000000", 42/100, 44/100⟩ =
      ([(4, 4, "B"), (16, 16, "W"), (3, 3, "B")], some [(4, 4, 1), (16, 16, 2), (3, 3, 3)]) := by
  decide
example :
    build_stones_and_numbers ⟨none, [], [], [], [("B", "dd"), ("W", "pp"), ("B", "cc")]⟩
        ⟨"moves", 2, "moves", "#ffffff", "#000000", 42/100, 44/100⟩ =
      ([(4, 4, "B"), (16, 16, "W")], some [(4, 4, 1), (16, 16, 2)]) := by decide

/-- The stone a move token would place: `none` for a pass. -/
def movePlaced (m : String × String) : Option (Int × Int × String) :=
  (sgf_to_rc m.2).map (fun rc => (rc.1, rc.2, m.1))

/-- All successfully-placed moves of a move list, in file order. -/
def allPlaced (moves : List (String × String)) : List (Int × Int × String) :=
  moves.filterMap movePlaced

/-- Setup stones a token list places with a fixed color, in list order. -/
def setupPlaced (color : String) (codes : List String) : List (Int × Int × String) :=
  codes.filterMap (fun code => (sgf_to_rc code).map (fun rc => (rc.1, rc.2, color)))

/-- The ordered setup log: `AB` entries then `AW` entries. -/
def setupEntries (parsed : SGFParsed) : List (Int × Int × String) :=
  setupPlaced "B" parsed.ab ++ setupPlaced "W" parsed.aw

/-- Effective move budget: `moves_limit` when positive, else the `10**12`
"unlimited" sentinel. -/
def effLimit (n : Int) : Nat :=
  if n > 0 then n.toNat else 10 ^ 12

/-- The moves the builder applies: the first `effLimit` successfully-placed
moves in `"moves"` mode, every successfully-placed move otherwise. -/
def appliedOf (parsed : SGFParsed) (render : SGFRenderOptions) :
    List (Int × Int × String) :=
  if render.mode = "moves" then (allPlaced parsed.moves).take (effLimit render.moves_limit)
  else allPlaced parsed.moves

/-- Apply a list of placements to the stone dict, in order. -/
def applyStones (st : List ((Int × Int) × String)) (l : List (Int × Int × String)) :
    List ((Int × Int) × String) :=
  l.foldl (fun st t => dinsert (t.1, t.2.1) t.2.2 st) st

/-- The builder's observable behavior as a function of the applied move
list: setup stones, `AE` clears, the applied moves, then numbering.  Used
to state what `build_stones_and_numbers` computes. -/
def overlayFromApplied (parsed : SGFParsed) (render : SGFRenderOptions)
    (applied : List (Int × Int × String)) :
    List (Int × Int × String) × Option (List (Int × Int × Int)) :=
  let setup := setupEntries parsed
  let st := applyStones (aeFold parsed.ae (applyStones [] setup)) applied
  let stones_list := st.map (fun e => (e.1.1, e.1.2, e.2))
  if render.numbering = "none" then (stones_list, none)
  else if render.numbering = "moves" then
    (stones_list, some (numberLoop 1 (applied.map (fun t => (t.1, t.2.1)))))
  else if render.numbering = "all" then
    (stones_list, some (numberLoop 1 ((setup ++ applied).map (fun t => (t.1, t.2.1)))))
  else (stones_list, some [])

theorem applyStones_append (st : List ((Int × Int) × String))
    (l1 l2 : List (Int × Int × String)) :
    applyStones st (l1 ++ l2) = applyStones (applyStones st l1) l2 :=
  List.foldl_append _ _ _ _

theorem setupFold_char (color : String) (codes : List String) :
    ∀ st sq, setupFold color codes st sq =
      (applyStones st (setupPlaced color codes),
       sq ++ (setupPlaced color codes).map (fun t => (t.1, t.2.1, t.2.2, "setup"))) := by
  induction codes with
  | nil => intro st sq; simp [setupFold, setupPlaced, applyStones]
  | cons code rest ih =>
    intro st sq
    simp only [setupFold, setupPlaced, List.filterMap_cons]
    match hrc : sgf_to_rc code with
    | none => simpa [hrc] using ih st sq
    | some rc =>
      simp only [hrc, Option.map_some, ih, setupPlaced]
      simp [applyStones, List.append_assoc]

/-- The first `r` successfully-placed moves of a move list, skipping passes
without consuming the budget. -/
def takePlaced : Nat → List (String × String) → List (Int × Int × String)
  | _, [] => []
  | r, (color, code) :: rest =>
    if r = 0 then []
    else
      match sgf_to_rc code with
      | none => takePlaced r rest
      | some rc => (rc.1, rc.2, color) :: takePlaced (r - 1) rest

theorem takePlaced_eq_take (moves : List (String × String)) :
    ∀ r : Nat, takePlaced r moves = (allPlaced moves).take r := by
  induction moves with
  | nil => intro r; simp [takePlaced, allPlaced]
  | cons m rest ih =>
    intro r
    obtain ⟨color, code⟩ := m
    match r with
    | 0 => simp [takePlaced]
    | r + 1 =>
      simp only [takePlaced, if_neg (Nat.succ_ne_zero r), allPlaced, List.filterMap_cons]
      match hrc : sgf_to_rc code with
      | none => simpa [movePlaced, hrc] using ih (r + 1)
      | some rc =>
        simp [movePlaced, hrc, ih r, allPlaced]

theorem movesLoopLimited_char (moves : List (String × String)) :
    ∀ (r : Nat) st ap sq,
      movesLoopLimited (r : Int) moves st ap sq =
        (applyStones st (takePlaced r moves),
         ap ++ takePlaced r moves,
         sq ++ (takePlaced r moves).map (fun t => (t.1, t.2.1, t.2.2, "move"))) := by
  induction moves with
  | nil => intro r st ap sq; simp [movesLoopLimited, takePlaced, applyStones]
  | cons m rest ih =>
    intro r st ap sq
    obtain ⟨color, code⟩ := m
    match r with
    | 0 => simp [movesLoopLimited, takePlaced, applyStones]
    | r + 1 =>
      have hpos : ¬ (((r : Nat) + 1 : Int) ≤ 0) := by omega
      simp only [movesLoopLimited, takePlaced, Nat.cast_add, Nat.cast_one,
        if_neg hpos, if_neg (Nat.succ_ne_zero r)]
      match hrc : sgf_to_rc code with
      | none => simpa [hrc] using ih (r + 1) st ap sq
      | some rc =>
        have hcast : ((r : Nat) + 1 - 1 : Int) = ((r : Nat) : Int) := by omega
        simp only [hrc, hcast, Nat.add_sub_cancel]
        rw [ih r]
        simp [applyStones, List.append_assoc]


theorem movesLoopAll_char (moves : List (String × String)) :
    ∀ st ap sq,
      movesLoopAll moves st ap sq =
        (applyStones st (allPlaced moves),
         ap ++ allPlaced moves,
         sq ++ (allPlaced moves).map (fun t => (t.1, t.2.1, t.2.2, "move"))) := by
  induction moves with
  | nil => intro st ap sq; simp [movesLoopAll, allPlaced, applyStones]
  | cons m rest ih =>
    intro st ap sq
    obtain ⟨color, code⟩ := m
    simp only [movesLoopAll, allPlaced, List.filterMap_cons]
    match hrc : sgf_to_rc code with
    | none => simpa [movePlaced, hrc] using ih st ap sq
    | some rc =>
      simp only [movePlaced, hrc, Option.map_some']
      rw [ih]
      simp [applyStones, allPlaced, List.append_assoc]

theorem build_characterization (parsed : SGFParsed) (render : SGFRenderOptions) :
    build_stones_and_numbers parsed render =
      overlayFromApplied parsed render (appliedOf parsed render) := by
  have hsetup :
      setupFold "W" parsed.aw (setupFold "B" parsed.ab [] []).1
          (setupFold "B" parsed.ab [] []).2 =
        (applyStones [] (setupEntries parsed),
         (setupEntries parsed).map (fun t => (t.1, t.2.1, t.2.2, "setup"))) := by
    rw [setupFold_char, setupFold_char]
    simp [setupEntries, applyStones_append, List.map_append]
  have hcast :
      (if render.moves_limit > 0 then render.moves_limit else 10 ^ 12 : Int) =
        ((effLimit render.moves_limit : Nat) : Int) := by
    rw [effLimit]
    by_cases hp : render.moves_limit > 0
    · rw [if_pos hp, if_pos hp, Int.toNat_of_nonneg (le_of_lt hp)]
    · rw [if_neg hp, if_neg hp]
      norm_num
  have hcompS :
      ((fun (q : SeqEntry) => (q.1, q.2.1)) ∘
        fun (t : Int × Int × String) => (t.1, t.2.1, t.2.2, ("setup" : String))) =
        fun t => (t.1, t.2.1) := rfl
  have hcompM :
      ((fun (q : SeqEntry) => (q.1, q.2.1)) ∘
        fun (t : Int × Int × String) => (t.1, t.2.1, t.2.2, ("move" : String))) =
        fun t => (t.1, t.2.1) := rfl
  rw [build_stones_and_numbers, overlayFromApplied, hsetup]
  by_cases hm : render.mode = "moves"
  · rw [if_pos hm, hcast, movesLoopLimited_char, takePlaced_eq_take]
    simp only [appliedOf, if_pos hm, List.nil_append, List.map_append, List.map_map]
    by_cases h0 : render.numbering = "none"
    · simp [h0]
    · by_cases h1 : render.numbering = "moves"
      · simp [h0, h1, Function.comp]
      · by_cases h2 : render.numbering = "all"
        · simp [h0, h1, h2, hcompS, hcompM, List.map_append, List.map_map]
        · simp [h0, h1, h2]
  · rw [if_neg hm, movesLoopAll_char]
    simp only [appliedOf, if_neg hm, List.nil_append, List.map_append, List.map_map]
    by_cases h0 : render.numbering = "none"
    · simp [h0]
    · by_cases h1 : render.numbering = "moves"
      · simp [h0, h1, Function.comp]
      · by_cases h2 : render.numbering = "all"
        · simp [h0, h1, h2, hcompS, hcompM, List.map_append, List.map_map]
        · simp [h0, h1, h2]

theorem takePlaced_zero (l : List (String × String)) : takePlaced 0 l = [] := by
  match l with
  | [] => rfl
  | (color, code) :: rest => simp [takePlaced]

theorem applyStones_replicate_self (p : Int × Int × String) :
    ∀ (j : Nat) (st : List ((Int × Int) × String)),
      dinsert (p.1, p.2.1) p.2.2 st = st →
      applyStones st (List.replicate j p) = st := by
  intro j
  induction j with
  | zero => intro st _; rfl
  | succ j ih =>
    intro st hfix
    rw [List.replicate_succ]
    show applyStones (dinsert (p.1, p.2.1) p.2.2 st) (List.replicate j p) = st
    rw [hfix]
    exact ih st hfix

/-- Python `str.strip()` (ASCII whitespace). -/
def pyStrip (s : String) : String :=
  String.mk (((s.data.dropWhile isPyWs).reverse.dropWhile isPyWs).reverse)

/-- Python `str.lower()` (ASCII). -/
def pyLower (s : String) : String :=
  String.mk (s.data.map Char.toLower)

/-- `choose_background` from the source: the comparison runs on
`setting.strip().lower()`; the catch-all branch keeps the original
`setting` text as the color. -/
def choose_background (setting : String) (config_bg : String) : Bool × String :=
  let s := pyLower (pyStrip setting)
  if s = "transparent" then (false, config_bg)
  else if s = "use_config_background" then (true, config_bg)
  else (true, setting)

example : choose_background "transparent" "white" = (false, "white") := by decide
example : choose_background "use_config_background" "white" = (true, "white") := by decide
example : choose_background "#ff0000" "white" = (true, "#ff0000") := by decide
example : choose_background "Transparent" "white" = (false, "white") := by decide
example : choose_background " TRANSPARENT " "white" = (false, "white") := by decide

/-- Numeric formatting for the markup.  The Python source interpolates
`float` values; their decimal rendering is abstracted by this exact
rational printer (every property proved here is insensitive to the
numeral text, only to which number is printed). -/
def fmtQ (q : ℚ) : String :=
  if q.den = 1 then toString q.num ++ ".0"
  else toString q.num ++ "/" ++ toString q.den

/-- The coordinate transform `pt(i) = margin + (i - 1) * spacing`
(column to x, row to y). -/
def ptMM (m s : ℚ) (i : Int) : ℚ :=
  m + ((i : ℚ) - 1) * s

/-- The `<svg ...>` opening tag. -/
def svgHeader (width height : ℚ) : String :=
  "<svg xmlns=\"http://www.w3.org/2000/svg\" width=\"" ++ fmtQ width ++
    "mm\" height=\"" ++ fmtQ height ++ "mm\" viewBox=\"0 0 " ++ fmtQ width ++
    " " ++ fmtQ height ++ "\">"

/-- The background `<rect>`. -/
def bgRectLine (width height : ℚ) (color : String) : String :=
  "<rect x=\"0\" y=\"0\" width=\"" ++ fmtQ width ++ "\" height=\"" ++
    fmtQ height ++ "\" fill=\"" ++ color ++ "\"/>"

/-- A horizontal grid line at row `i`. -/
def gridHLine (m s : ℚ) (n : Nat) (grid_color : String) (lt : ℚ) (i : Nat) : String :=
  "<line x1=\"" ++ fmtQ (ptMM m s 1) ++ "\" y1=\"" ++ fmtQ (ptMM m s (i : Int)) ++
    "\" x2=\"" ++ fmtQ (ptMM m s (n : Int)) ++ "\" y2=\"" ++ fmtQ (ptMM m s (i : Int)) ++
    "\" stroke=\"" ++ grid_color ++ "\" stroke-width=\"" ++ fmtQ lt ++ "\"/>"

/-- A vertical grid line at column `i`. -/
def gridVLine (m s : ℚ) (n : Nat) (grid_color : String) (lt : ℚ) (i : Nat) : String :=
  "<line x1=\"" ++ fmtQ (ptMM m s (i : Int)) ++ "\" y1=\"" ++ fmtQ (ptMM m s 1) ++
    "\" x2=\"" ++ fmtQ (ptMM m s (i : Int)) ++ "\" y2=\"" ++ fmtQ (ptMM m s (n : Int)) ++
    "\" stroke=\"" ++ grid_color ++ "\" stroke-width=\"" ++ fmtQ lt ++ "\"/>"

/-- A star-point circle at `(r, c)` (center `(pt c, pt r)`). -/
def hoshiCircleLine (m s : ℚ) (grid_color : String) (star_diameter : ℚ)
    (p : Int × Int) : String :=
  "<circle cx=\"" ++ fmtQ (ptMM m s p.2) ++ "\" cy=\"" ++ fmtQ (ptMM m s p.1) ++
    "\" r=\"" ++ fmtQ (star_diameter / 2) ++ "\" fill=\"" ++ grid_color ++ "\"/>"

/-- A stone circle for `(r, c, color)`: black fill for `"B"`, white
otherwise; center `(pt c, pt r)`, radius `spacing * scale`. -/
def stoneCircleLine (m s : ℚ) (outline_color : String) (lt : ℚ)
    (stone_radius_scale : ℚ) (t : Int × Int × String) : String :=
  "<circle cx=\"" ++ fmtQ (ptMM m s t.2.1) ++ "\" cy=\"" ++ fmtQ (ptMM m s t.1) ++
    "\" r=\"" ++ fmtQ (s * stone_radius_scale) ++ "\" fill=\"" ++
    (if t.2.2 = "B" then "#000000" else "#ffffff") ++ "\" stroke=\"" ++
    outline_color ++ "\" stroke-width=\"" ++ fmtQ lt ++ "\"/>"

/-- A move-number `<text>` for `(r, c, num)`, centered at `(pt c, pt r)`. -/
def numberTextLine (m s : ℚ) (number_color : String)
    (move_number_font_scale : ℚ) (t : Int × Int × Int) : String :=
  "<text x=\"" ++ fmtQ (ptMM m s t.2.1) ++ "\" y=\"" ++ fmtQ (ptMM m s t.1) ++
    "\" font-family=\"sans-serif\" font-size=\"" ++ fmtQ (s * move_number_font_scale) ++
    "\" fill=\"" ++ number_color ++
    "\" text-anchor=\"middle\" dominant-baseline=\"central\">" ++
    toString t.2.2 ++ "</text>"

/-- Python truthiness of the optional `stones` / `numbers` arguments:
`None` and `[]` are falsy. -/
def optTruthy {α : Type} : Option (List α) → Bool
  | none => false
  | some l => !l.isEmpty

/-- `render_svg` from the source, mirroring the `parts.append(...)`
sequence: header; background rect when requested; when `include_grid`, for
each `i` in `1..n` one horizontal then one vertical line, followed by the
hoshi circles; when `stones` is truthy, the stone circles and then — only
when `numbers` is also truthy — the number texts; closing tag; all joined
with newlines. -/
def render_svg (spec : GoBoardSpec) (line_thickness star_diameter : ℚ)
    (grid_color background_color : String) (line_spacing_mm margin_mm : ℚ)
    (include_grid include_background_rect : Bool)
    (stones : Option (List (Int × Int × String)))
    (numbers : Option (List (Int × Int × Int)))
    (number_color outline_color : String)
    (stone_radius_scale move_number_font_scale : ℚ) : String :=
  let n := spec.size
  let s := line_spacing_mm
  let m := margin_mm
  let width := m * 2 + s * ((n : ℚ) - 1)
  let parts1 := [svgHeader width width]
  let parts2 := parts1 ++
    (if include_background_rect then [bgRectLine width width background_color] else [])
  let parts3 := parts2 ++
    (if include_grid then
      (List.range n).foldl
        (fun acc k => acc ++ [gridHLine m s n grid_color line_thickness (k + 1),
                              gridVLine m s n grid_color line_thickness (k + 1)]) []
      ++ spec.hoshi.foldl
        (fun acc p => acc ++ [hoshiCircleLine m s grid_color star_diameter p]) []
    else [])
  let parts4 := parts3 ++
    (if optTruthy stones then
      (stones.getD []).foldl
        (fun acc t => acc ++ [stoneCircleLine m s outline_color line_thickness
                                stone_radius_scale t]) []
      ++ (if optTruthy numbers then
            (numbers.getD []).foldl
              (fun acc t => acc ++ [numberTextLine m s number_color
                                      move_number_font_scale t]) []
          else [])
    else [])
  String.intercalate "\n" (parts4 ++ ["</svg>"])

theorem foldl_append_pair {α β : Type} (g h : α → β) (l : List α) :
    ∀ init : List β,
      l.foldl (fun acc x => acc ++ [g x, h x]) init =
        init ++ l.flatMap (fun x => [g x, h x]) := by
  induction l with
  | nil => intro init; simp
  | cons x rest ih =>
    intro init
    simp only [List.foldl_cons, List.flatMap_cons, ih, List.append_assoc]

theorem foldl_append_one {α β : Type} (g : α → β) (l : List α) :
    ∀ init : List β,
      l.foldl (fun acc x => acc ++ [g x]) init = init ++ l.map g := by
  induction l with
  | nil => intro init; simp
  | cons x rest ih =>
    intro init
    simp only [List.foldl_cons, List.map_cons, ih, List.append_assoc]
    simp

/-- `render_svg` expanded into its ordered parts: header, optional
background rect, grid lines interleaved row-then-column in ascending index
order followed by hoshi circles, stone circles in layout order, number
texts in annotation order, closing tag. -/
theorem render_svg_parts (spec : GoBoardSpec) (line_thickness star_diameter : ℚ)
    (grid_color background_color : String) (line_spacing_mm margin_mm : ℚ)
    (include_grid include_background_rect : Bool)
    (stones : Option (List (Int × Int × String)))
    (numbers : Option (List (Int × Int × Int)))
    (number_color outline_color : String)
    (stone_radius_scale move_number_font_scale : ℚ) :
    render_svg spec line_thickness star_diameter grid_color background_color
        line_spacing_mm margin_mm include_grid include_background_rect stones numbers
        number_color outline_color stone_radius_scale move_number_font_scale =
      String.intercalate "\n"
        ([svgHeader (margin_mm * 2 + line_spacing_mm * ((spec.size : ℚ) - 1))
            (margin_mm * 2 + line_spacing_mm * ((spec.size : ℚ) - 1))] ++
         (if include_background_rect then
            [bgRectLine (margin_mm * 2 + line_spacing_mm * ((spec.size : ℚ) - 1))
               (margin_mm * 2 + line_spacing_mm * ((spec.size : ℚ) - 1)) background_color]
          else []) ++
         (if include_grid then
            (List.range spec.size).flatMap
              (fun k => [gridHLine margin_mm line_spacing_mm spec.size grid_color
                           line_thickness (k + 1),
                         gridVLine margin_mm line_spacing_mm spec.size grid_color
                           line_thickness (k + 1)]) ++
            spec.hoshi.map
              (hoshiCircleLine margin_mm line_spacing_mm grid_color star_diameter)
          else []) ++
         (if optTruthy stones then
            (stones.getD []).map
              (stoneCircleLine margin_mm line_spacing_mm outline_color line_thickness
                 stone_radius_scale) ++
            (if optTruthy numbers then
               (numbers.getD []).map
                 (numberTextLine margin_mm line_spacing_mm number_color
                    move_number_font_scale)
             else [])
          else []) ++
         ["</svg>"]) := by
  rw [render_svg]
  simp only [foldl_append_pair, foldl_append_one, List.nil_append, List.append_assoc]

/-- The star-point placement rule as the specification words it: `k = 4`
for sizes 19 and 13, `k = 3` for size 9, `mid = (size+1)/2`; for size 19
all of `{k, mid, size-k+1} x {k, mid, size-k+1}`, otherwise the four
corners `{k, size-k+1} x {k, size-k+1}` plus the center `(mid, mid)`;
sorted ascending by `(row, col)`. -/
def starPointsSpecRule (size : Nat) : List (Int × Int) :=
  let k : Int := if size = 9 then 3 else 4
  let mid : Int := ((size : Int) + 1) / 2
  let base : List Int :=
    if size = 19 then [k, mid, (size : Int) - k + 1] else [k, (size : Int) - k + 1]
  let pts := (base.flatMap (fun r => base.map (fun c => (r, c)))) ++
    (if size = 19 then [] else [(mid, mid)])
  pySorted pts

/-- Strictly ascending in the lexicographic `(row, col)` order. -/
def sortedLexPairs : List (Int × Int) → Bool
  | [] => true
  | [_] => true
  | a :: b :: rest =>
    decide (a.1 < b.1 ∨ (a.1 = b.1 ∧ a.2 < b.2)) && sortedLexPairs (b :: rest)

theorem findSome?_all_none {α β : Type} {f : α → Option β} :
    ∀ {l1 : List α}, (∀ w ∈ l1, f w = none) →
      ∀ l2 : List α, (l1 ++ l2).findSome? f = l2.findSome? f := by
  intro l1
  induction l1 with
  | nil => intro _ l2; simp
  | cons a rest ih =>
    intro h l2
    have ha : f a = none := h a (List.mem_cons_self a rest)
    have hrest : ∀ w ∈ rest, f w = none := fun w hw => h w (List.mem_cons_of_mem a hw)
    simp [List.findSome?_cons, ha, ih hrest l2]

/-- The last `SZ` value that `int` accepts wins: values after it that fail
to parse are skipped. -/
theorem szFromVals_last {pre post : List String} {v : String} {n : Int}
    (hv : pyInt? v = some n) (hpost : ∀ w ∈ post, pyInt? w = none) :
    szFromVals (pre ++ v :: post) = some n := by
  rw [szFromVals]
  rw [List.reverse_append, List.reverse_cons, List.append_assoc]
  rw [findSome?_all_none (by simpa using hpost)]
  simp [List.findSome?_cons, hv]

/-- When no `SZ` value parses, there is no size override. -/
theorem szFromVals_none {vals : List String}
    (h : ∀ v ∈ vals, pyInt? v = none) : szFromVals vals = none := by
  rw [szFromVals, show vals.reverse = vals.reverse ++ [] by simp]
  rw [findSome?_all_none (by simpa using h)]
  simp

/-- C1 (counterexample to the claim as stated): in `AB]dd]` the identifier
`AB` is followed immediately by `]` — a non-bracket, non-identifier
character while bracket values were expected — yet `parse_sgf_minimal`
succeeds instead of raising `MalformedRecordError`. -/
theorem C1_counterexample_missing_bracket_no_error :
    parse_sgf_minimal "AB]dd]" = .ok ⟨none, [], [], [], []⟩ := by decide

/-- C1 (amended): `parse_sgf_minimal` never raises on any record text —
the expected-bracket error branch is unreachable because bracket values
are only read behind the `s[j] == '['` guard, and an identifier followed
by a non-bracket character simply collects zero values; an unrecognized
identifier such as `XY[foo]` is silently ignored and does not affect the
rest of the parse. -/
theorem C1_parse_never_raises :
    (∀ s : String, ∃ r, parse_sgf_minimal s = Except.ok r) ∧
    parse_sgf_minimal "B!" = .ok ⟨none, [], [], [], [("B", "")]⟩ ∧
    parse_sgf_minimal "XY[foo]AB[dd];B[cc]" = parse_sgf_minimal "AB[dd];B[cc]" :=
  ⟨parse_sgf_minimal_ok, by decide, by decide⟩

/-- C5: for each size in 9/13/19, the computed hoshi list matches the
spec's star-point rule, has 9 points on 19x19 and 5 otherwise, is sorted
ascending by `(row, col)`, and is closed under 180-degree rotation about
the center `(mid, mid)`. -/
theorem C5_star_points :
    ∀ n : Nat, (n = 9 ∨ n = 13 ∨ n = 19) →
      ∃ sp, make_go_board_spec n = some sp ∧
        sp.hoshi = starPointsSpecRule n ∧
        sp.hoshi.length = (if n = 19 then 9 else 5) ∧
        sortedLexPairs sp.hoshi ∧
        (∀ p ∈ sp.hoshi, (2 * sp.mid - p.1, 2 * sp.mid - p.2) ∈ sp.hoshi) := by
  intro n h
  rcases h with rfl | rfl | rfl <;>
    exact ⟨_, rfl, by decide, by decide, by decide, by decide⟩

/-- C5 witness: the size-19 instance. -/
theorem C5_star_points_witness :
    (19 = 9 ∨ 19 = 13 ∨ 19 = 19) ∧
      ∃ sp, make_go_board_spec 19 = some sp ∧
        sp.hoshi = starPointsSpecRule 19 ∧
        sp.hoshi.length = (if 19 = 19 then 9 else 5) ∧
        sortedLexPairs sp.hoshi ∧
        (∀ p ∈ sp.hoshi, (2 * sp.mid - p.1, 2 * sp.mid - p.2) ∈ sp.hoshi) :=
  ⟨by decide, C5_star_points 19 (by decide)⟩

/-- C6: the parsed size override is the last `SZ` bracket value that
parses as an integer; values failing `int` are skipped silently and no
parseable value at all means no override. -/
theorem C6_size_override_last_parse :
    (∀ (pre post : List String) (v : String) (n : Int),
        pyInt? v = some n → (∀ w ∈ post, pyInt? w = none) →
        szFromVals (pre ++ v :: post) = some n) ∧
    (∀ vals : List String, (∀ v ∈ vals, pyInt? v = none) → szFromVals vals = none) ∧
    (parse_sgf_minimal "SZ[foo]SZ[13]SZ[bar]").map SGFParsed.size = .ok (some 13) ∧
    (parse_sgf_minimal "SZ[9][x]").map SGFParsed.size = .ok (some 9) ∧
    (parse_sgf_minimal ";SZ[abc]").map SGFParsed.size = .ok none :=
  ⟨fun _ _ _ _ hv hp => szFromVals_last hv hp,
   fun _ h => szFromVals_none h, by decide, by decide, by decide⟩

/-- C7 (counterexample to the claim as stated): `"Transparent"` is a
literal value other than `"transparent"` and `"use_config_background"`,
so the claim requires a rectangle filled with `"Transparent"`; the code
normalizes case and emits no rectangle. -/
theorem C7_counterexample_case_insensitive :
    choose_background "Transparent" "white" = (false, "white") ∧
    "Transparent" ≠ "transparent" ∧
    "Transparent" ≠ "use_config_background" := by decide

theorem sgf_to_rc_pair (c0 c1 : Char) :
    sgf_to_rc (String.mk [c0, c1]) =
      (if (c1.toNat : Int) - ('a'.toNat : Int) + 1 < 1 ∨
          (c0.toNat : Int) - ('a'.toNat : Int) + 1 < 1
       then none
       else some ((c1.toNat : Int) - ('a'.toNat : Int) + 1,
                  (c0.toNat : Int) - ('a'.toNat : Int) + 1)) := by
  rw [sgf_to_rc]
  have h2 : ¬ ((String.mk [c0, c1]).length ≠ 2) := not_not_intro rfl
  rw [if_neg (by simp [String.ext_iff]), if_neg h2]

/-- C4: the coordinate mapper takes the first character to the column and
the second to the row via alphabet position (`a = 1`), returns no position
exactly for the empty token, a token of length other than two, or a row or
column below 1, and never raises (it is a total function). -/
theorem C4_to_row_col :
    (∀ c0 c1 : Char,
        sgf_to_rc (String.mk [c0, c1]) =
          (if (c1.toNat : Int) - ('a'.toNat : Int) + 1 < 1 ∨
              (c0.toNat : Int) - ('a'.toNat : Int) + 1 < 1
           then none
           else some ((c1.toNat : Int) - ('a'.toNat : Int) + 1,
                      (c0.toNat : Int) - ('a'.toNat : Int) + 1))) ∧
    (∀ s : String, s.data.length ≠ 2 → sgf_to_rc s = none) ∧
    sgf_to_rc "aa" = some (1, 1) ∧
    sgf_to_rc "zz" = some (26, 26) ∧
    sgf_to_rc "" = none ∧
    sgf_to_rc "a" = none := by
  refine ⟨sgf_to_rc_pair, ?_, by decide, by decide, by decide, by decide⟩
  intro s h
  rw [sgf_to_rc]
  by_cases hs : s = ""
  · rw [if_pos hs]
  · have h2 : s.length ≠ 2 := h
    rw [if_neg hs, if_pos h2]

/-- C8: rendering is deterministic (a pure function of its inputs: two
calls on identical inputs give the same string), and the markup is the
newline-join of, in order: header, optional background rect, grid lines
interleaved horizontal-then-vertical in ascending index order, star points
in the geometry's sorted order, stones in layout order, numbers in
annotation order, closing tag. -/
theorem C8_render_deterministic_ordered :
    ∀ (spec : GoBoardSpec) (lt sd ls mm srs mnfs : ℚ) (gc bgc nc oc : String)
      (ig ibg : Bool) (st : Option (List (Int × Int × String)))
      (nu : Option (List (Int × Int × Int))),
      render_svg spec lt sd gc bgc ls mm ig ibg st nu nc oc srs mnfs =
        render_svg spec lt sd gc bgc ls mm ig ibg st nu nc oc srs mnfs ∧
      render_svg spec lt sd gc bgc ls mm ig ibg st nu nc oc srs mnfs =
        String.intercalate "\n"
          ([svgHeader (mm * 2 + ls * ((spec.size : ℚ) - 1))
              (mm * 2 + ls * ((spec.size : ℚ) - 1))] ++
           (if ibg then
              [bgRectLine (mm * 2 + ls * ((spec.size : ℚ) - 1))
                 (mm * 2 + ls * ((spec.size : ℚ) - 1)) bgc]
            else []) ++
           (if ig then
              (List.range spec.size).flatMap
                (fun k => [gridHLine mm ls spec.size gc lt (k + 1),
                           gridVLine mm ls spec.size gc lt (k + 1)]) ++
              spec.hoshi.map (hoshiCircleLine mm ls gc sd)
            else []) ++
           (if optTruthy st then
              (st.getD []).map (stoneCircleLine mm ls oc lt srs) ++
              (if optTruthy nu then
                 (nu.getD []).map (numberTextLine mm ls nc mnfs)
               else [])
            else []) ++
           ["</svg>"]) :=
  fun spec lt sd ls mm srs mnfs gc bgc nc oc ig ibg st nu =>
    ⟨rfl, render_svg_parts spec lt sd gc bgc ls mm ig ibg st nu nc oc srs mnfs⟩

/-- C10: with an absent or empty stones argument, no stone circles and no
number texts are emitted — even a non-empty numbers list is suppressed —
and the output equals the overlay-free rendering. -/
theorem C10_empty_stones_suppress_numbers :
    ∀ (spec : GoBoardSpec) (lt sd ls mm srs mnfs : ℚ) (gc bgc nc oc : String)
      (ig ibg : Bool) (nu : Option (List (Int × Int × Int))),
      render_svg spec lt sd gc bgc ls mm ig ibg none nu nc oc srs mnfs =
        render_svg spec lt sd gc bgc ls mm ig ibg none none nc oc srs mnfs ∧
      render_svg spec lt sd gc bgc ls mm ig ibg (some []) nu nc oc srs mnfs =
        render_svg spec lt sd gc bgc ls mm ig ibg none none nc oc srs mnfs ∧
      render_svg spec lt sd gc bgc ls mm ig ibg none nu nc oc srs mnfs =
        String.intercalate "\n"
          ([svgHeader (mm * 2 + ls * ((spec.size : ℚ) - 1))
              (mm * 2 + ls * ((spec.size : ℚ) - 1))] ++
           (if ibg then
              [bgRectLine (mm * 2 + ls * ((spec.size : ℚ) - 1))
                 (mm * 2 + ls * ((spec.size : ℚ) - 1)) bgc]
            else []) ++
           (if ig then
              (List.range spec.size).flatMap
                (fun k => [gridHLine mm ls spec.size gc lt (k + 1),
                           gridVLine mm ls spec.size gc lt (k + 1)]) ++
              spec.hoshi.map (hoshiCircleLine mm ls gc sd)
            else []) ++
           ["</svg>"]) := by
  intro spec lt sd ls mm srs mnfs gc bgc nc oc ig ibg nu
  refine ⟨?_, ?_, ?_⟩ <;>
    simp [render_svg_parts, optTruthy]

/-- C9: no stage checks coordinates against the board size.  Any
two-character token whose characters map to values at least 1 yields that
`(row, col)` — `\x7b\x7b` (the character after `z`) maps to `(27, 27)` —
the overlay builder places a stone there, and the renderer draws its
circle at the `pt` transform of those coordinates, which for a 19x19 board
with the default margin and spacing lies beyond the last grid line and
even beyond the canvas. -/
theorem C9_no_bounds_check :
    (∀ c0 c1 : Char,
        1 ≤ (c0.toNat : Int) - ('a'.toNat : Int) + 1 →
        1 ≤ (c1.toNat : Int) - ('a'.toNat : Int) + 1 →
        sgf_to_rc (String.mk [c0, c1]) =
          some ((c1.toNat : Int) - ('a'.toNat : Int) + 1,
                (c0.toNat : Int) - ('a'.toNat : Int) + 1)) ∧
    sgf_to_rc (String.mk [Char.ofNat 123, Char.ofNat 123]) = some (27, 27) ∧
    (build_stones_and_numbers
        ⟨none, [], [], [], [("B", String.mk [Char.ofNat 123, Char.ofNat 123])]⟩
        ⟨"position", 0, "none", "#ffffff", "#000000", 42/100, 44/100⟩).1 =
      [(27, 27, "B")] ∧
    (∀ (spec : GoBoardSpec) (lt sd ls mm srs mnfs : ℚ) (gc bgc nc oc : String)
        (ig ibg : Bool),
      render_svg spec lt sd gc bgc ls mm ig ibg (some [(27, 27, "B")]) none
          nc oc srs mnfs =
        String.intercalate "\n"
          ([svgHeader (mm * 2 + ls * ((spec.size : ℚ) - 1))
              (mm * 2 + ls * ((spec.size : ℚ) - 1))] ++
           (if ibg then
              [bgRectLine (mm * 2 + ls * ((spec.size : ℚ) - 1))
                 (mm * 2 + ls * ((spec.size : ℚ) - 1)) bgc]
            else []) ++
           (if ig then
              (List.range spec.size).flatMap
                (fun k => [gridHLine mm ls spec.size gc lt (k + 1),
                           gridVLine mm ls spec.size gc lt (k + 1)]) ++
              spec.hoshi.map (hoshiCircleLine mm ls gc sd)
            else []) ++
           [stoneCircleLine mm ls oc lt srs (27, 27, "B")] ++
           ["</svg>"])) ∧
    ptMM 18 22 27 > ptMM 18 22 19 ∧
    ptMM 18 22 27 > 18 * 2 + 22 * ((19 : ℚ) - 1) := by
  refine ⟨?_, by decide, by decide, ?_, by norm_num [ptMM], by norm_num [ptMM]⟩
  · intro c0 c1 h0 h1
    rw [sgf_to_rc_pair, if_neg (by omega)]
  · intro spec lt sd ls mm srs mnfs gc bgc nc oc ig ibg
    rw [render_svg_parts]
    simp [optTruthy]

/-- C7 (amended): background resolution compares the whitespace-stripped,
lowercased setting — `"transparent"` under that normalization gives no
background rect, `"use_config_background"` gives a rect in the global
background color, and anything else gives a rect filled with the original
setting text; the boolean drives exactly whether `render_svg` emits the
rect. -/
theorem C7_background_resolution :
    (∀ setting bg : String, pyLower (pyStrip setting) = "transparent" →
        choose_background setting bg = (false, bg)) ∧
    (∀ setting bg : String, pyLower (pyStrip setting) = "use_config_background" →
        choose_background setting bg = (true, bg)) ∧
    (∀ setting bg : String, pyLower (pyStrip setting) ≠ "transparent" →
        pyLower (pyStrip setting) ≠ "use_config_background" →
        choose_background setting bg = (true, setting)) ∧
    choose_background "transparent" "#ffeecc" = (false, "#ffeecc") ∧
    choose_background "use_config_background" "#ffeecc" = (true, "#ffeecc") ∧
    choose_background "#ff0000" "#ffeecc" = (true, "#ff0000") ∧
    (∀ (spec : GoBoardSpec) (lt sd ls mm srs mnfs : ℚ) (gc nc oc : String)
        (ig : Bool) (st : Option (List (Int × Int × String)))
        (nu : Option (List (Int × Int × Int))) (setting bg : String),
      render_svg spec lt sd gc (choose_background setting bg).2 ls mm ig
          (choose_background setting bg).1 st nu nc oc srs mnfs =
        String.intercalate "\n"
          ([svgHeader (mm * 2 + ls * ((spec.size : ℚ) - 1))
              (mm * 2 + ls * ((spec.size : ℚ) - 1))] ++
           (if (choose_background setting bg).1 then
              [bgRectLine (mm * 2 + ls * ((spec.size : ℚ) - 1))
                 (mm * 2 + ls * ((spec.size : ℚ) - 1)) (choose_background setting bg).2]
            else []) ++
           (if ig then
              (List.range spec.size).flatMap
                (fun k => [gridHLine mm ls spec.size gc lt (k + 1),
                           gridVLine mm ls spec.size gc lt (k + 1)]) ++
              spec.hoshi.map (hoshiCircleLine mm ls gc sd)
            else []) ++
           (if optTruthy st then
              (st.getD []).map (stoneCircleLine mm ls oc lt srs) ++
              (if optTruthy nu then
                 (nu.getD []).map (numberTextLine mm ls nc mnfs)
               else [])
            else []) ++
           ["</svg>"])) := by
  refine ⟨?_, ?_, ?_, by decide, by decide, by decide, ?_⟩
  · intro setting bg h
    simp only [choose_background]
    rw [if_pos h]
  · intro setting bg h
    simp only [choose_background]
    rw [if_neg (by rw [h]; decide), if_pos h]
  · intro setting bg h1 h2
    simp only [choose_background]
    rw [if_neg h1, if_neg h2]
  · intro spec lt sd ls mm srs mnfs gc nc oc ig st nu setting bg
    exact render_svg_parts spec lt sd gc (choose_background setting bg).2 ls mm ig
      (choose_background setting bg).1 st nu nc oc srs mnfs

theorem filterMap_replicate_some {α β : Type} (f : α → Option β) (a : α) (b : β)
    (h : f a = some b) :
    ∀ k : Nat, (List.replicate k a).filterMap f = List.replicate k b := by
  intro k
  induction k with
  | zero => simp
  | succ k ih => simp [List.replicate_succ, List.filterMap_cons, h, ih]

theorem take_replicate_append {α : Type} (k : Nat) (b : α) (l2 : List α) :
    (List.replicate k b ++ l2).take k = List.replicate k b := by
  have h := List.take_left (List.replicate k b) l2
  rwa [List.length_replicate] at h

/-- C2 (amended): in `"moves"` mode the builder applies exactly the first
`effLimit moves_limit` successfully-placed moves in file order — the
positive limit itself, or the `10**12` "unlimited" sentinel when the limit
is not positive — skipping passes without consuming the budget; in any
other mode (`"position"`) every successfully-placed move is applied and
the limit is ignored; with limit 2 and moves `B dd, W pp, B cc` the third
move reaches neither the stone layout nor the numbering. -/
theorem C2_moves_limit_selection :
    (∀ (parsed : SGFParsed) (render : SGFRenderOptions),
        render.mode = "moves" →
        build_stones_and_numbers parsed render =
          overlayFromApplied parsed render
            ((allPlaced parsed.moves).take (effLimit render.moves_limit))) ∧
    (∀ (parsed : SGFParsed) (render : SGFRenderOptions),
        render.mode ≠ "moves" →
        build_stones_and_numbers parsed render =
          overlayFromApplied parsed render (allPlaced parsed.moves)) ∧
    (∀ n : Int, 0 < n → effLimit n = n.toNat) ∧
    build_stones_and_numbers ⟨none, [], [], [], [("B", "dd"), ("W", "pp"), ("B", "cc")]⟩
        ⟨"moves", 2, "moves", "#ffffff", "#000000", 42/100, 44/100⟩ =
      ([(4, 4, "B"), (16, 16, "W")], some [(4, 4, 1), (16, 16, 2)]) := by
  refine ⟨?_, ?_, ?_, by decide⟩
  · intro parsed render h
    rw [build_characterization]
    simp [appliedOf, h]
  · intro parsed render h
    rw [build_characterization]
    simp [appliedOf, h]
  · intro n h
    simp [effLimit, h]

/-- C2 (counterexample to "movesLimit = 0 applies all moves"): with limit
0 the code's budget is the `10**12` sentinel, so on a record with
`10**12 + 1` placed moves — `10**12` black stones on `aa` followed by one
white stone on `bb` — the final white move is never applied: the layout is
exactly `[(1, 1, "B")]` and contains no stone at `(2, 2)`. -/
theorem applyStones_cons (st : List ((Int × Int) × String))
    (p : Int × Int × String) (l : List (Int × Int × String)) :
    applyStones st (p :: l) = applyStones (dinsert (p.1, p.2.1) p.2.2 st) l := rfl

theorem overlayFromApplied_stones (parsed : SGFParsed) (render : SGFRenderOptions)
    (applied : List (Int × Int × String)) :
    (overlayFromApplied parsed render applied).1 =
      (applyStones (aeFold parsed.ae (applyStones [] (setupEntries parsed)))
          applied).map (fun e => (e.1.1, e.1.2, e.2)) := by
  by_cases h0 : render.numbering = "none"
  · rw [overlayFromApplied]
    simp [h0]
  · by_cases h1 : render.numbering = "moves"
    · rw [overlayFromApplied]
      simp [h0, h1]
    · by_cases h2 : render.numbering = "all"
      · rw [overlayFromApplied]
        simp [h0, h1, h2]
      · rw [overlayFromApplied]
        simp [h0, h1, h2]

/-- C2 (counterexample to "movesLimit = 0 applies all moves"): with limit
0 the code's budget is the `10**12` sentinel, so on a record with
`10**12 + 1` placed moves — `10**12` black stones on `aa` followed by one
white stone on `bb` — the final white move is never applied: the layout is
exactly `[(1, 1, "B")]` and contains no stone at `(2, 2)`. -/
theorem C2_counterexample_unlimited_sentinel :
    (build_stones_and_numbers
        ⟨none, [], [], [], List.replicate (10 ^ 12) ("B", "aa") ++ [("W", "bb")]⟩
        ⟨"moves", 0, "none", "#ffffff", "#000000", 42/100, 44/100⟩).1 =
      [(1, 1, "B")] ∧
    ((2 : Int), (2 : Int), ("W" : String)) ∉
      (build_stones_and_numbers
        ⟨none, [], [], [], List.replicate (10 ^ 12) ("B", "aa") ++ [("W", "bb")]⟩
        ⟨"moves", 0, "none", "#ffffff", "#000000", 42/100, 44/100⟩).1 := by
  have happ :
      appliedOf ⟨none, [], [], [], List.replicate (10 ^ 12) ("B", "aa") ++ [("W", "bb")]⟩
          ⟨"moves", 0, "none", "#ffffff", "#000000", 42/100, 44/100⟩ =
        List.replicate (10 ^ 12) ((1 : Int), (1 : Int), ("B" : String)) := by
    rw [appliedOf]
    rw [if_pos rfl]
    have hall :
        allPlaced (List.replicate (10 ^ 12) ("B", "aa") ++ [("W", "bb")]) =
          List.replicate (10 ^ 12) ((1 : Int), (1 : Int), ("B" : String)) ++
            [((2 : Int), (2 : Int), ("W" : String))] := by
      rw [allPlaced, List.filterMap_append,
        filterMap_replicate_some movePlaced ("B", "aa")
          ((1 : Int), (1 : Int), ("B" : String)) (by decide)]
      congr 1
    show (allPlaced (List.replicate (10 ^ 12) ("B", "aa") ++ [("W", "bb")])).take
        (effLimit 0) = _
    rw [hall, show effLimit 0 = 10 ^ 12 from rfl]
    exact take_replicate_append _ _ _
  have hsetup : setupEntries ⟨none, [], [], [],
      List.replicate (10 ^ 12) ("B", "aa") ++ [("W", "bb")]⟩ = [] := rfl
  have hmain :
      (build_stones_and_numbers
          ⟨none, [], [], [], List.replicate (10 ^ 12) ("B", "aa") ++ [("W", "bb")]⟩
          ⟨"moves", 0, "none", "#ffffff", "#000000", 42/100, 44/100⟩).1 =
        [(1, 1, "B")] := by
    rw [build_characterization, happ, overlayFromApplied_stones, hsetup]
    rw [show aeFold ((⟨none, [], [], [],
        List.replicate (10 ^ 12) ("B", "aa") ++ [("W", "bb")]⟩ : SGFParsed)).ae
        (applyStones [] []) = ([] : List ((Int × Int) × String)) from rfl]
    rw [show (10 ^ 12 : Nat) = 999999999999 + 1 by norm_num, List.replicate_succ,
      applyStones_cons]
    rw [applyStones_replicate_self _ 999999999999 _ (by decide)]
    decide
  exact ⟨hmain, by rw [hmain]; decide⟩

/-- C3: with numbering `"all"`, every entry of the ordered log is numbered
from 1 in log order — `AB` setup entries in list order, then `AW` setup
entries, then applied moves in play order; the `i`-th log entry gets
number `i + 1`; a setup entry cleared later by `AE` keeps its number; and
`AB[dd]AW[pp];B[cc]` numbers `(4,4) -> 1`, `(16,16) -> 2`, `(3,3) -> 3`
in that order. -/
theorem C3_numbering_all_order :
    (∀ (parsed : SGFParsed) (render : SGFRenderOptions),
        render.numbering = "all" →
        (build_stones_and_numbers parsed render).2 =
          some (numberLoop 1
            ((setupEntries parsed ++ appliedOf parsed render).map
              (fun t => (t.1, t.2.1))))) ∧
    (∀ (l : List (Int × Int)) (n : Int) (i : Nat),
        (numberLoop n l).get? i = (l.get? i).map (fun p => (p.1, p.2, n + (i : Int)))) ∧
    (parse_sgf_minimal "AB[dd]AW[pp];B[cc]").map
        (fun r => (build_stones_and_numbers r
          ⟨"position", 0, "all", "#ffffff", "#000000", 42/100, 44/100⟩).2) =
      .ok (some [(4, 4, 1), (16, 16, 2), (3, 3, 3)]) ∧
    build_stones_and_numbers ⟨none, ["dd"], [], ["dd"], []⟩
        ⟨"position", 0, "all", "#ffffff", "#000000", 42/100, 44/100⟩ =
      ([], some [(4, 4, 1)]) := by
  refine ⟨?_, ?_, by decide, by decide⟩
  · intro parsed render h
    rw [build_characterization, overlayFromApplied]
    rw [h]
    rw [if_neg (by decide), if_neg (by decide), if_pos rfl]
  · intro l
    induction l with
    | nil => intro n i; simp [numberLoop]
    | cons p rest ih =>
      intro n i
      obtain ⟨r, c⟩ := p
      match i with
      | 0 => simp [numberLoop]
      | i + 1 =>
        have hf : (n + 1) + (i : Int) = n + (((i : Nat) + 1 : Nat) : Int) := by
          push_cast
          ring
        simp only [numberLoop, List.get?_cons_succ, ih (n + 1) i, hf]
